import Mathlib

/-!
# Verification of the `iconpicker` SVG normalization engine

Shallow embedding of `src/python/iconpicker.py` (class `IconPicker`).

Conventions of the embedding:

* Numbers are represented by `Frac`, an unnormalized fraction type
  (integer numerator, natural denominator).  All arithmetic used by the
  program is implemented structurally on `Frac`, so every definition is
  kernel-executable.  Exact rational arithmetic models the geometry and
  dimension pipeline; IEEE binary64 rounding is modelled explicitly
  (`Frac.toDouble`) inside the numeric-formatting step, where the source's
  observable behavior (`round(float(s), 2)` and `format(_, "g")`) depends
  on it.
* `_extract_dimensions` is embedded as `extractDimensions`, including the
  regex split `re.split(r"[ ,]+", s.strip())`, the unit-stripping
  substitution `re.sub(r"[a-zA-Z%]", "", s)` and Python `float` parsing.
* The external library `svgpathtools` (functions `svg2paths2`,
  `Path.scaled`, `Path.d`) is not part of the repository.  It is modelled
  from the spec: paths are ordered lists of segments with rational control
  points, `scaled` multiplies X coordinates by the X factor and Y
  coordinates by the Y factor, and `d` serializes segments in order with
  canonical decimal coordinates.
* `xml.dom.minidom` documents are modelled by the tree type `XNode`.
  The claims under verification are about the DOM structure that
  `_create_svg_dom`/`_process_svg_logic` build; the final `toprettyxml`
  pass only chooses a layout for that structure (`minify` switches the
  indent string and skips the blank-line filter) and is not modelled.
-/

/-- Unnormalized fraction: value `num / den`.  All constructors used by the
embedding keep `den` positive; no gcd normalization is performed, so every
operation reduces in the kernel. -/
structure Frac where
  num : Int
  den : Nat
deriving DecidableEq, Repr

/-- Embed an integer. -/
def Frac.ofInt (n : Int) : Frac := ⟨n, 1⟩

def Frac.mul (a b : Frac) : Frac := ⟨a.num * b.num, a.den * b.den⟩

def Frac.addF (a b : Frac) : Frac :=
  ⟨a.num * (b.den : Int) + b.num * (a.den : Int), a.den * b.den⟩

def Frac.negF (a : Frac) : Frac := ⟨-a.num, a.den⟩

/-- Reciprocal; keeps the denominator positive by moving the sign. -/
def Frac.inv (a : Frac) : Frac :=
  ⟨if a.num < 0 then -(a.den : Int) else (a.den : Int), a.num.natAbs⟩

def Frac.div (a b : Frac) : Frac := a.mul b.inv

/-- `a / b == 0` in the source is a test on the float value; on fractions it
is a test on the numerator. -/
def Frac.isZero (a : Frac) : Bool := a.num == 0

/-- Value-level equality of fractions (cross multiplication). -/
def Frac.eqv (a b : Frac) : Prop := a.num * (b.den : Int) = b.num * (a.den : Int)

instance (a b : Frac) : Decidable (a.eqv b) := by
  unfold Frac.eqv; infer_instance

def Frac.leF (a b : Frac) : Bool := a.num * (b.den : Int) ≤ b.num * (a.den : Int)

/-- Floor of the value (denominator positive). -/
def Frac.floorF (a : Frac) : Int := Int.fdiv a.num (a.den : Int)

/-- Round to the nearest integer, ties to even — the rounding used both by
IEEE-754 binary64 operations and by CPython's correctly rounded
float-to-decimal conversions. -/
def Frac.rndHE (a : Frac) : Int :=
  let f := a.floorF
  let r2 := 2 * (a.num - f * (a.den : Int))
  if r2 < (a.den : Int) then f
  else if r2 > (a.den : Int) then f + 1
  else if f % 2 = 0 then f else f + 1

/-- Multiply by `2 ^ e` for a signed exponent. -/
def Frac.mulPow2 (a : Frac) (e : Int) : Frac :=
  if 0 ≤ e then ⟨a.num * (2 : Int) ^ e.toNat, a.den⟩
  else ⟨a.num, a.den * 2 ^ (-e).toNat⟩

/-- Multiply by `10 ^ e` for a signed exponent. -/
def Frac.mulPow10 (a : Frac) (e : Int) : Frac :=
  if 0 ≤ e then ⟨a.num * (10 : Int) ^ e.toNat, a.den⟩
  else ⟨a.num, a.den * 10 ^ (-e).toNat⟩

/-- Fuel-bounded bit length of a natural number. -/
def bitsAux : Nat → Nat → Nat
  | 0, _ => 0
  | f + 1, n => if n = 0 then 0 else bitsAux f (n / 2) + 1

def bitLen (n : Nat) : Nat := bitsAux 256 n

/-- Fuel-bounded decimal digit count of a natural number (`0` has 1 digit). -/
def digAux : Nat → Nat → Nat
  | 0, _ => 0
  | f + 1, n => if n < 10 then 1 else digAux f (n / 10) + 1

def digLen (n : Nat) : Nat := digAux 96 n

/-- `2 ^ e ≤ a` for a positive fraction `a` and signed `e`. -/
def pow2le (e : Int) (a : Frac) : Bool :=
  if 0 ≤ e then (2 : Int) ^ e.toNat * (a.den : Int) ≤ a.num
  else (a.den : Int) ≤ (2 : Int) ^ (-e).toNat * a.num

/-- `10 ^ e ≤ a` for a positive fraction `a` and signed `e`. -/
def pow10le (e : Int) (a : Frac) : Bool :=
  if 0 ≤ e then (10 : Int) ^ e.toNat * (a.den : Int) ≤ a.num
  else (a.den : Int) ≤ (10 : Int) ^ (-e).toNat * a.num

/-- `⌊log₂ a⌋` for a positive fraction, via bit lengths plus one correction
step (the bit-length estimate is off by at most one). -/
def Frac.log2F (a : Frac) : Int :=
  let c : Int := (bitLen a.num.natAbs : Int) - (bitLen a.den : Int)
  if pow2le c a then c else c - 1

/-- `⌊log₁₀ a⌋` for a positive fraction, via digit counts plus one
correction step. -/
def Frac.log10F (a : Frac) : Int :=
  let c : Int := (digLen a.num.natAbs : Int) - (digLen a.den : Int)
  if pow10le c a then c else c - 1

/-- Exact value of the IEEE-754 binary64 double nearest to the positive
fraction `a` (round to nearest, ties to even; 53-bit significand).
Overflow and subnormal ranges are outside every value this program
manipulates and are not modelled. -/
def toDoublePos (a : Frac) : Frac :=
  let e : Int := a.log2F - 52
  let m : Int := (a.mulPow2 (-e)).rndHE
  Frac.mulPow2 ⟨m, 1⟩ e

/-- Exact value of the binary64 double nearest to a fraction. -/
def Frac.toDouble (a : Frac) : Frac :=
  if a.num = 0 then ⟨0, 1⟩
  else if 0 < a.num then toDoublePos a
  else (toDoublePos a.negF).negF

/-! ## Character and string utilities (structural, kernel-executable) -/

def isDigitCh (c : Char) : Bool := '0' ≤ c ∧ c ≤ '9'

def digitVal (c : Char) : Nat := c.toNat - 48

def digitChar (n : Nat) : Char := Char.ofNat (48 + n)

/-- Fuel-bounded decimal rendering of a natural number, most significant
digit first. -/
def natDigsAux : Nat → Nat → List Char
  | 0, _ => []
  | f + 1, n => if n < 10 then [digitChar n] else natDigsAux f (n / 10) ++ [digitChar (n % 10)]

def natDigs (n : Nat) : List Char := natDigsAux 96 n

/-- Characters removed by Python `str.strip()` (ASCII whitespace). -/
def isPyWs (c : Char) : Bool :=
  c = ' ' ∨ c = '\t' ∨ c = '\n' ∨ c = '\r' ∨ c = '\x0b' ∨ c = '\x0c'

/-- Python `str.strip()`. -/
def pyStrip (l : List Char) : List Char :=
  ((l.dropWhile isPyWs).reverse.dropWhile isPyWs).reverse

/-- Separator class of the viewBox split regex `[ ,]`. -/
def isSepCh (c : Char) : Bool := c = ' ' ∨ c = ','

/-- `re.split(r"[ ,]+", s)`: split at maximal separator runs; a leading or
trailing run contributes an empty token, matching Python `re.split`. -/
def reSplitAux : Nat → List Char → List Char → List (List Char)
  | 0, acc, _ => [acc.reverse]
  | _ + 1, acc, [] => [acc.reverse]
  | f + 1, acc, c :: rest =>
      if isSepCh c then acc.reverse :: reSplitAux f [] (rest.dropWhile isSepCh)
      else reSplitAux f (c :: acc) rest

def reSplitSep (l : List Char) : List (List Char) := reSplitAux (l.length + 1) [] l

/-- Characters removed by `re.sub(r"[a-zA-Z%]", "", s)` (unit stripping for
`width`/`height` attribute values). -/
def isUnitCh (c : Char) : Bool :=
  ('a' ≤ c ∧ c ≤ 'z') ∨ ('A' ≤ c ∧ c ≤ 'Z') ∨ c = '%'

def stripUnits (l : List Char) : List Char := l.filter (fun c => ¬ isUnitCh c)

/-- Read a maximal digit run: returns its value, its length and the rest. -/
def readDigits : List Char → Nat → Nat → Nat × Nat × List Char
  | c :: rest, acc, n =>
      if isDigitCh c then readDigits rest (acc * 10 + digitVal c) (n + 1)
      else (acc, n, c :: rest)
  | [], acc, n => (acc, n, [])

/-- Fixed-point part of a Python float literal:
`digits [. digits] | . digits | digits .` with at least one digit overall.
Returns the exact value and the rest of the input. -/
def parseFixed (l : List Char) : Option (Frac × List Char) :=
  match l with
  | '.' :: rest =>
      let (m, k, rest') := readDigits rest 0 0
      if k = 0 then none else some (⟨m, 10 ^ k⟩, rest')
  | _ =>
      let (i, ki, rest₁) := readDigits l 0 0
      if ki = 0 then none
      else
        match rest₁ with
        | '.' :: rest₂ =>
            let (m, k, rest') := readDigits rest₂ 0 0
            some (⟨(i : Int) * 10 ^ k + m, 10 ^ k⟩, rest')
        | _ => some (⟨i, 1⟩, rest₁)

/-- Exponent suffix of a Python float literal (`e`/`E`, optional sign,
digits); `none` input position means "no exponent". -/
def parseExp (l : List Char) : Option (Int × List Char) :=
  match l with
  | c :: rest =>
      if c = 'e' ∨ c = 'E' then
        match rest with
        | '+' :: r₂ =>
            let (m, k, rest') := readDigits r₂ 0 0
            if k = 0 then none else some ((m : Int), rest')
        | '-' :: r₂ =>
            let (m, k, rest') := readDigits r₂ 0 0
            if k = 0 then none else some (-(m : Int), rest')
        | _ =>
            let (m, k, rest') := readDigits rest 0 0
            if k = 0 then none else some ((m : Int), rest')
      else none
  | [] => none

/-- Python `float(s)` on a string, returning the exact rational value of the
literal (finite decimal/scientific literals only; `inf`/`nan` are outside
this program's inputs).  Rejects anything with trailing garbage, matching
`float`'s `ValueError`. -/
def parseFloat (l : List Char) : Option Frac :=
  let t := pyStrip l
  let (sign, body) :=
    match t with
    | '-' :: r => (true, r)
    | '+' :: r => (false, r)
    | _ => (false, t)
  match parseFixed body with
  | none => none
  | some (v, rest) =>
      let (v, rest) :=
        match parseExp rest with
        | some (e, rest') => (v.mulPow10 e, rest')
        | none => (v, rest)
      if rest = [] then some (if sign then v.negF else v) else none

def parseFloatS (s : String) : Option Frac := parseFloat s.data

/-! ## Error taxonomy and dimension resolver -/

/-- Error taxonomy of the spec (§7).  In the source these are
`FileNotFoundError`, the `ValueError` wrapping a parser diagnostic, the
`ValueError` raised by `float(...)` on an unparseable attribute token, and
the `ValueError` "Original SVG has 0 width or height". -/
inductive Err
  | notFound
  | parseError
  | malformedAttribute
  | invalidDimensions
deriving DecidableEq, Repr

instance {ε α : Type} [DecidableEq ε] [DecidableEq α] : DecidableEq (Except ε α) := by
  intro a b
  cases a <;> cases b
  case error.error e₁ e₂ =>
    exact match decEq e₁ e₂ with
      | isTrue h => isTrue (by rw [h])
      | isFalse h => isFalse (by intro hc; cases hc; exact h rfl)
  case ok.ok a₁ a₂ =>
    exact match decEq a₁ a₂ with
      | isTrue h => isTrue (by rw [h])
      | isFalse h => isFalse (by intro hc; cases hc; exact h rfl)
  all_goals exact isFalse (by intro h; cases h)

/-- Root attribute mapping of the parsed SVG (`svg_attr` in the source):
an ordered key/value dictionary. -/
abbrev SvgAttrs := List (String × String)

/-- Dictionary lookup (`"viewBox" in svg_attributes` / `svg_attributes[k]`). -/
def getAttr (a : SvgAttrs) (k : String) : Option String :=
  match a with
  | [] => none
  | (k', v) :: rest => if k' = k then some v else getAttr rest k

/-- `IconPicker._extract_dimensions`.

```
old_w, old_h = 100.0, 100.0
if "viewBox" in svg_attributes:
    vb_parts = re.split(r"[ ,]+", svg_attributes["viewBox"].strip())
    if len(vb_parts) == 4:
        _, _, old_w, old_h = map(float, vb_parts)
elif "width" in svg_attributes and "height" in svg_attributes:
    old_w = float(re.sub(r"[a-zA-Z%]", "", svg_attributes["width"]))
    old_h = float(re.sub(r"[a-zA-Z%]", "", svg_attributes["height"]))
return old_w, old_h
```

A `float(...)` failure raises `ValueError`, modelled as
`Err.malformedAttribute`; note that with a 4-token viewBox *all four*
tokens are converted, and that a viewBox whose token count is not 4
silently keeps the `(100.0, 100.0)` defaults. -/
def extractDimensions (attrs : SvgAttrs) : Except Err (Frac × Frac) :=
  match getAttr attrs "viewBox" with
  | some vb =>
      let parts := reSplitSep (pyStrip vb.data)
      if parts.length = 4 then
        match parts.map parseFloat with
        | [some _, some _, some w, some h] => .ok (w, h)
        | _ => .error .malformedAttribute
      else .ok (⟨100, 1⟩, ⟨100, 1⟩)
  | none =>
      match getAttr attrs "width", getAttr attrs "height" with
      | some w, some h =>
          match parseFloat (stripUnits w.data), parseFloat (stripUnits h.data) with
          | some fw, some fh => .ok (fw, fh)
          | _, _ => .error .malformedAttribute
      | _, _ => .ok (⟨100, 1⟩, ⟨100, 1⟩)

example : extractDimensions [("viewBox", "0 0 24 24")] = .ok (⟨24, 1⟩, ⟨24, 1⟩) := by decide
example : extractDimensions [("width", "16px"), ("height", "16px")] = .ok (⟨16, 1⟩, ⟨16, 1⟩) := by decide
example : extractDimensions [("fill", "none")] = .ok (⟨100, 1⟩, ⟨100, 1⟩) := by decide
example : extractDimensions [("viewBox", "0 0 24")] = .ok (⟨100, 1⟩, ⟨100, 1⟩) := by decide
example : extractDimensions [("viewBox", "0 0 a 24")] = .error .malformedAttribute := by decide
example : extractDimensions [("viewBox", "0,0, 24, 24")] = .ok (⟨24, 1⟩, ⟨24, 1⟩) := by decide
example : extractDimensions [("viewBox", "0 0 0 10")] = .ok (⟨0, 1⟩, ⟨10, 1⟩) := by decide
example : extractDimensions [("viewBox", "garbage"), ("width", "16px"), ("height", "16px")] = .ok (⟨100, 1⟩, ⟨100, 1⟩) := by decide

/-! ## The numeric formatter

Model of the substitution in `_process_svg_logic`:

```
rounded_d = re.sub(
    r"(-?\d+\.\d+|-?\d+)",
    lambda m: format(round(float(m.group(0)), 2), "g"),
    path_d
)
```

`float` converts the matched literal to binary64; `round(x, 2)` produces
the binary64 nearest to the correctly rounded (ties-to-even) 2-decimal
value of `x`; `format(x, "g")` renders with precision 6: the value is
rounded to 6 significant digits, printed in fixed notation when the
decimal exponent is in `[-4, 6)` and in scientific notation otherwise,
with trailing zeros removed.  A negative zero prints as `-0`. -/

/-- A Python float: IEEE sign bit plus the exact rational magnitude of the
binary64 value (`neg = true, mag = 0` is `-0.0`). -/
structure PyF where
  neg : Bool
  mag : Frac
deriving DecidableEq, Repr

/-- `float(s)` for a matched literal `-?\d+(\.\d+)?`: the sign and the
binary64 rounding of the decimal magnitude. -/
def pyFloatTok (tok : List Char) : PyF :=
  match tok with
  | '-' :: r =>
      ⟨true, (match parseFixed r with
              | some (v, _) => v
              | none => ⟨0, 1⟩).toDouble⟩
  | _ =>
      ⟨false, (match parseFixed tok with
               | some (v, _) => v
               | none => ⟨0, 1⟩).toDouble⟩

/-- CPython `round(x, 2)`: correctly rounded (ties to even) decimal at 2
places, converted back to binary64.  The sign of a zero result is the sign
of the argument. -/
def PyF.round2 (x : PyF) : PyF :=
  ⟨x.neg, Frac.toDouble ⟨(x.mag.mul ⟨100, 1⟩).rndHE, 100⟩⟩

/-- Strip trailing `'0'` characters. -/
def stripT (l : List Char) : List Char :=
  (l.reverse.dropWhile (fun c => c = '0')).reverse

/-- Round a positive fraction to 6 significant digits: returns `(s, E)`
with `10 ^ 5 ≤ s < 10 ^ 6` and value `s * 10 ^ (E - 5)`. -/
def sixSig (a : Frac) : Int × Int :=
  let E := a.log10F
  let s := (a.mulPow10 (5 - E)).rndHE
  if s = 1000000 then (100000, E + 1) else (s, E)

/-- Fixed-notation rendering of 6 significant digits `ds` with decimal
exponent `E ∈ [-4, 6)`, trailing zeros removed. -/
def gFixed (ds : List Char) (E : Int) : List Char :=
  if 0 ≤ E then
    let ip := ds.take (E.toNat + 1)
    let fp := stripT (ds.drop (E.toNat + 1))
    if fp = [] then ip else ip ++ '.' :: fp
  else '0' :: '.' :: List.replicate (-E - 1).toNat '0' ++ stripT ds

/-- Scientific-notation rendering (`d.ddddd` e sign exponent, exponent
printed with at least two digits), trailing zeros removed. -/
def gSci (ds : List Char) (E : Int) : List Char :=
  let mant :=
    match ds with
    | d :: rest => if stripT rest = [] then [d] else d :: '.' :: stripT rest
    | [] => []
  let n := E.natAbs
  mant ++ 'e' :: (if E < 0 then '-' else '+') :: (if n < 10 then '0' :: natDigs n else natDigs n)

/-- `format(a, "g")` for a positive binary64 value `a`. -/
def gPos (a : Frac) : List Char :=
  let p := sixSig a
  let ds := natDigs p.1.toNat
  if -4 ≤ p.2 ∧ p.2 < 6 then gFixed ds p.2 else gSci ds p.2

/-- `format(x, "g")` for a Python float. -/
def pyFormatG (x : PyF) : List Char :=
  if x.mag.num = 0 then (if x.neg then ['-', '0'] else ['0'])
  else (if x.neg then ['-'] else []) ++ gPos x.mag

/-- Replacement applied to one matched numeric literal:
`format(round(float(tok), 2), "g")`. -/
def formatNumber (tok : List Char) : List Char :=
  pyFormatG (PyF.round2 (pyFloatTok tok))

/-- Grab one match of `\d+(\.\d+)?` (input starts with a digit): the
matched literal and the rest.  The fractional part is taken only when a
digit follows the dot, as in the regex alternation
`-?\d+\.\d+|-?\d+`. -/
def grabNum (l : List Char) : List Char × List Char :=
  let d1 := l.takeWhile isDigitCh
  let r1 := l.dropWhile isDigitCh
  match r1 with
  | '.' :: r2 =>
      match r2 with
      | c :: _ =>
          if isDigitCh c then
            (d1 ++ '.' :: r2.takeWhile isDigitCh, r2.dropWhile isDigitCh)
          else (d1, r1)
      | [] => (d1, r1)
  | _ => (d1, r1)

/-- One left-to-right pass of
`re.sub(r"(-?\d+\.\d+|-?\d+)", lambda m: format(round(float(m), 2), "g"), s)`.
A `-` participates in a match only when immediately followed by a digit;
replacements are not rescanned. -/
def subFmtAux : Nat → List Char → List Char
  | 0, l => l
  | _ + 1, [] => []
  | f + 1, c :: rest =>
      if isDigitCh c then
        let p := grabNum (c :: rest)
        formatNumber p.1 ++ subFmtAux f p.2
      else if c = '-' then
        match rest with
        | c₂ :: _ =>
            if isDigitCh c₂ then
              let p := grabNum rest
              formatNumber ('-' :: p.1) ++ subFmtAux f p.2
            else c :: subFmtAux f rest
        | [] => [c]
      else c :: subFmtAux f rest

/-- The numeric-formatting step on a path-data string. -/
def subFmt (s : String) : String := ⟨subFmtAux s.data.length s.data⟩

example : subFmt "12.345" = "12.35" := by decide
example : subFmt "5.00" = "5" := by decide
example : subFmt "-0.001" = "-0" := by decide
example : subFmt "1234567" = "1.23457e+06" := by decide
example : subFmt "M 0.0,0.0 L 48.0,48.0" = "M 0,0 L 48,48" := by decide
example : subFmt "M Z , L" = "M Z , L" := by decide
example : subFmt "12.355" = "12.36" := by decide
example : subFmt "0.125" = "0.12" := by decide
example : subFmt "2.675" = "2.67" := by decide
example : subFmt "-13.449" = "-13.45" := by decide
example : subFmt "123456.78" = "123457" := by decide

example : subFmt "0.005" = "0.01" := by decide
example : subFmt "-0.005" = "-0.01" := by decide
example : subFmt "999999.4" = "999999" := by decide
example : subFmt "999999.5" = "1e+06" := by decide
example : subFmt "1000000" = "1e+06" := by decide
example : subFmt "0.0001" = "0" := by decide
example : subFmt "1e5" = "1e5" := by decide
example : subFmt "9.99999e+16" = "10e+16" := by decide
example : subFmt "1234567.89" = "1.23457e+06" := by decide
example : subFmt "0.015" = "0.01" := by decide
example : subFmt "0.025" = "0.03" := by decide
example : subFmt "100.5" = "100.5" := by decide
example : subFmt "-48.125" = "-48.12" := by decide
example : subFmt "3.14159" = "3.14" := by decide
example : subFmt "0.1" = "0.1" := by decide
example : subFmt "33.333333" = "33.33" := by decide

/-! ## Canonical decimal rendering of a fraction (the serializer's view) -/

/-- Smallest `k ≤ fuel` with `den ∣ |num| * 10 ^ k`, if any: the number of
decimal places needed to write the fraction exactly. -/
def decKAux : Nat → Nat → Frac → Option Nat
  | 0, _, _ => none
  | f + 1, k, a => if a.num.natAbs * 10 ^ k % a.den = 0 then some k else decKAux f (k + 1) a

/-- Left-pad a digit list with `'0'` to width `k`. -/
def padDigs (k : Nat) (n : Nat) : List Char :=
  let ds := natDigs n
  List.replicate (k - ds.length) '0' ++ ds

/-- Canonical decimal rendering of a fraction: exact shortest decimal when
the value terminates (all values this program produces do), otherwise
rounded at 40 places. -/
def fracStr (a : Frac) : List Char :=
  let k : Nat := match decKAux 41 0 a with | some k => k | none => 40
  let scaled := (a.mulPow10 (Int.ofNat k)).rndHE
  let sign := if scaled < 0 then ['-'] else []
  let m := scaled.natAbs
  if k = 0 then sign ++ natDigs m
  else
    let fp := stripT (padDigs k (m % 10 ^ k))
    if fp = [] then sign ++ natDigs (m / 10 ^ k)
    else sign ++ natDigs (m / 10 ^ k) ++ '.' :: fp

example : fracStr ⟨1152, 24⟩ = ['4', '8'] := by decide
example : fracStr ⟨-1, 8⟩ = ['-', '0', '.', '1', '2', '5'] := by decide
example : fracStr ⟨0, 24⟩ = ['0'] := by decide

/-! ## Path geometry (modelled from the spec)

`svgpathtools` supplies `Path` objects (`svg2paths2`), anisotropic scaling
(`Path.scaled(scale_x, scale_y)`) and serialization (`Path.d()`).  The
library is not part of this repository; spec §3/§4.3 describe the contract:
a path is an ordered sequence of line/quadratic/cubic/arc segments, scaling
multiplies every control point's X coordinate by `scaleX` and every Y
coordinate by `scaleY` independently, preserving segment types and
ordering, and `d()` re-emits path-data syntax with one command per
segment. -/

abbrev Pt := Frac × Frac

inductive Seg
  | line (p0 p1 : Pt)
  | quad (p0 c p1 : Pt)
  | cubic (p0 c1 c2 p1 : Pt)
  | arc (p0 rad : Pt) (rot : Frac) (largeArc sweep : Bool) (p1 : Pt)
deriving DecidableEq, Repr

abbrev SPath := List Seg

inductive SegKind
  | line
  | quad
  | cubic
  | arc
deriving DecidableEq, Repr

def Seg.kind : Seg → SegKind
  | .line .. => .line
  | .quad .. => .quad
  | .cubic .. => .cubic
  | .arc .. => .arc

/-- The control points of a segment, in order. -/
def Seg.points : Seg → List Pt
  | .line p0 p1 => [p0, p1]
  | .quad p0 c p1 => [p0, c, p1]
  | .cubic p0 c1 c2 p1 => [p0, c1, c2, p1]
  | .arc p0 _ _ _ _ p1 => [p0, p1]

def Seg.start : Seg → Pt
  | .line p0 _ => p0
  | .quad p0 _ _ => p0
  | .cubic p0 _ _ _ => p0
  | .arc p0 _ _ _ _ _ => p0

/-- Scale a point: X by `sx`, Y by `sy`. -/
def scalePt (sx sy : Frac) (p : Pt) : Pt := (p.1.mul sx, p.2.mul sy)

/-- `Path.scaled(sx, sy)` on one segment: every control point is scaled
coordinatewise; an arc's radii scale with the axes, its rotation and flags
are unchanged. -/
def Seg.scaled (sx sy : Frac) : Seg → Seg
  | .line p0 p1 => .line (scalePt sx sy p0) (scalePt sx sy p1)
  | .quad p0 c p1 => .quad (scalePt sx sy p0) (scalePt sx sy c) (scalePt sx sy p1)
  | .cubic p0 c1 c2 p1 =>
      .cubic (scalePt sx sy p0) (scalePt sx sy c1) (scalePt sx sy c2) (scalePt sx sy p1)
  | .arc p0 rad rot la sw p1 =>
      .arc (scalePt sx sy p0) (scalePt sx sy rad) rot la sw (scalePt sx sy p1)

def scalePath (sx sy : Frac) (p : SPath) : SPath := p.map (Seg.scaled sx sy)

/-- `x,y` coordinate pair in path data. -/
def ptStr (p : Pt) : List Char := fracStr p.1 ++ ',' :: fracStr p.2

def flagCh (b : Bool) : Char := if b then '1' else '0'

/-- One path-data command per segment. -/
def segStr : Seg → List Char
  | .line _ p1 => 'L' :: ' ' :: ptStr p1
  | .quad _ c p1 => 'Q' :: ' ' :: ptStr c ++ ' ' :: ptStr p1
  | .cubic _ c1 c2 p1 => 'C' :: ' ' :: ptStr c1 ++ ' ' :: ptStr c2 ++ ' ' :: ptStr p1
  | .arc _ rad rot la sw p1 =>
      'A' :: ' ' :: ptStr rad ++ ' ' :: fracStr rot ++
        ' ' :: flagCh la :: ',' :: flagCh sw :: ' ' :: ptStr p1

def segsStr : SPath → List Char
  | [] => []
  | s :: rest => ' ' :: segStr s ++ segsStr rest

/-- `Path.d()`: an `M` to the first segment's start, then one command per
segment in order. -/
def pathD (p : SPath) : List Char :=
  match p with
  | [] => []
  | s :: _ => 'M' :: ' ' :: ptStr s.start ++ segsStr p

example : String.mk (pathD [Seg.line (⟨0, 1⟩, ⟨0, 1⟩) (⟨24, 1⟩, ⟨24, 1⟩)]) = "M 0,0 L 24,24" := by decide

/-! ## DOM model and `_create_svg_dom` -/

/-- `xml.dom.minidom` node: element with ordered attributes and children,
or a text node. -/
inductive XNode
  | elem (tag : String) (attrs : List (String × String)) (children : List XNode)
  | text (s : String)

def XNode.tag : XNode → String
  | .elem t _ _ => t
  | .text _ => ""

def XNode.attrs : XNode → List (String × String)
  | .elem _ a _ => a
  | .text _ => []

def XNode.children : XNode → List XNode
  | .elem _ _ c => c
  | .text _ => []

/-- `f"0 0 {new_width} {new_height}"` with numbers rendered canonically. -/
def vbStr (w h : Frac) : String := ⟨'0' :: ' ' :: '0' :: ' ' :: fracStr w ++ ' ' :: fracStr h⟩

/-- The CSS text node injected by `add_style`
(`"\n  svg { --icon-color: #D4D4D4; }\n"`). -/
def styleCss : String := "\n  svg \x7b --icon-color: #D4D4D4; \x7d\n"

def styleNode : XNode := .elem "style" [] [.text styleCss]

/-- `IconPicker._create_svg_dom`: root attributes in `setAttribute` order
(`viewBox`; `width`/`height` when requested; `xmlns`; `fill`; `style`) and
the optional `<style>` child. -/
def createSvgDom (newW newH : Frac) (addWH addStyle : Bool) :
    List (String × String) × List XNode :=
  ([("viewBox", vbStr newW newH)]
     ++ (if addWH then [("width", ⟨fracStr newW⟩), ("height", ⟨fracStr newH⟩)] else [])
     ++ [("xmlns", "http://www.w3.org/2000/svg"), ("fill", "currentColor"),
         ("style", "--icon-color:#D4D4D4; fill:var(--icon-color);")],
   if addStyle then [styleNode] else [])

/-- A parsed source document: root attributes plus the ordered path list
(the `paths, _, svg_attr` result of `svg2paths2`). -/
structure SvgSource where
  attrs : SvgAttrs
  paths : List SPath
deriving DecidableEq

def mkPathNode (d : String) : XNode := .elem "path" [("d", d)] []

/-- `IconPicker._process_svg_logic` up to (not including) serialization.

The input is the outcome of reading and parsing the file:
`.error .notFound` when `os.path.exists` fails, `.error .parseError` when
`svg2paths2` raises, otherwise the parsed document.  The steps mirror the
source: resolve dimensions, reject zero width/height, compute the scale
factors, build the DOM root, then for each path scale it, serialize it and
apply the numeric-formatting substitution, appending one `<path>` node per
input path.  The trailing `toprettyxml` call only chooses a layout for this
DOM and is not modelled; `minify` affects only that layout. -/
def processSvgCore (input : Except Err SvgSource) (newW newH : Frac)
    (addStyle addWH : Bool) : Except Err XNode :=
  match input with
  | .error e => .error e
  | .ok src =>
      match extractDimensions src.attrs with
      | .error e => .error e
      | .ok dims =>
          if dims.1.isZero || dims.2.isZero then .error .invalidDimensions
          else
            let sx := newW.div dims.1
            let sy := newH.div dims.2
            let base := createSvgDom newW newH addWH addStyle
            let ds := src.paths.map (fun p => subFmt ⟨pathD (scalePath sx sy p)⟩)
            .ok (.elem "svg" base.1 (base.2 ++ ds.map mkPathNode))

/-- The `d` attributes of the `<path>` children, in order. -/
def dStrings (n : XNode) : List String :=
  n.children.filterMap (fun c => if c.tag = "path" then getAttr c.attrs "d" else none)

/-- The number of `<path>` children. -/
def pathCount (n : XNode) : Nat :=
  (n.children.filter (fun c => c.tag = "path")).length

/-! ## Parsing path data back (the external parser's view of our output) -/

/-- Split at maximal runs of spaces, dropping empty tokens. -/
def splitWsAux : Nat → List Char → List Char → List (List Char)
  | 0, acc, _ => if acc = [] then [] else [acc.reverse]
  | _ + 1, acc, [] => if acc = [] then [] else [acc.reverse]
  | f + 1, acc, c :: rest =>
      if c = ' ' then
        if acc = [] then splitWsAux f [] rest
        else acc.reverse :: splitWsAux f [] rest
      else splitWsAux f (c :: acc) rest

def splitWs (l : List Char) : List (List Char) := splitWsAux (l.length + 1) [] l

/-- Split one `x,y` token at its comma. -/
def splitComma (l : List Char) : Option (List Char × List Char) :=
  let a := l.takeWhile (fun c => c ≠ ',')
  match l.dropWhile (fun c => c ≠ ',') with
  | ',' :: b => if b.any (fun c => c = ',') then none else some (a, b)
  | _ => none

def parsePt (l : List Char) : Option Pt := do
  let p ← splitComma l
  let x ← parseFloat p.1
  let y ← parseFloat p.2
  pure (x, y)

def parseFlag (l : List Char) : Option Bool :=
  match l with
  | ['0'] => some false
  | ['1'] => some true
  | _ => none

/-- Parse the command tokens after the initial `M`, threading the current
point (each segment starts where the previous one ended). -/
def parseSegs : Nat → Pt → List (List Char) → Option (List Seg)
  | 0, _, _ => none
  | _ + 1, _, [] => some []
  | f + 1, cur, ['L'] :: t :: rest => do
      let p ← parsePt t
      let segs ← parseSegs f p rest
      pure (.line cur p :: segs)
  | f + 1, cur, ['Q'] :: t₁ :: t₂ :: rest => do
      let c ← parsePt t₁
      let p ← parsePt t₂
      let segs ← parseSegs f p rest
      pure (.quad cur c p :: segs)
  | f + 1, cur, ['C'] :: t₁ :: t₂ :: t₃ :: rest => do
      let c₁ ← parsePt t₁
      let c₂ ← parsePt t₂
      let p ← parsePt t₃
      let segs ← parseSegs f p rest
      pure (.cubic cur c₁ c₂ p :: segs)
  | f + 1, cur, ['A'] :: t₁ :: t₂ :: t₃ :: t₄ :: rest => do
      let rad ← parsePt t₁
      let rot ← parseFloat t₂
      let fl ← splitComma t₃
      let la ← parseFlag fl.1
      let sw ← parseFlag fl.2
      let p ← parsePt t₄
      let segs ← parseSegs f p rest
      pure (.arc cur rad rot la sw p :: segs)
  | _ + 1, _, _ => none

/-- Parse a `d` attribute produced by `pathD`/`subFmt` back into segments. -/
def pathDataParse (l : List Char) : Option SPath :=
  match splitWs l with
  | [] => some []
  | ['M'] :: t :: rest => do
      let p ← parsePt t
      parseSegs (rest.length + 1) p rest
  | _ => none

/-- Monadic map over `Option`, written structurally (a `None` fails the
whole traversal). -/
def mapO {α β : Type} (f : α → Option β) : List α → Option (List β)
  | [] => some []
  | a :: t =>
      match f a, mapO f t with
      | some b, some r => some (b :: r)
      | _, _ => none

/-- The external parser applied to an emitted document: recover the root
attributes and re-parse each `<path>` child's `d` attribute.  A `d` string
the parser cannot read fails the whole parse (`svg2paths2` raises, wrapped
into `ParseError` by the source). -/
def docToSource (n : XNode) : Except Err SvgSource :=
  let dNodes := n.children.filterMap
    (fun c => if c.tag = "path" then getAttr c.attrs "d" else none)
  match mapO (fun d => pathDataParse d.data) dNodes with
  | some paths => .ok ⟨n.attrs, paths⟩
  | none => .error .parseError

example : pathDataParse "M 0,0 L 48,48".data =
    some [Seg.line (⟨0, 1⟩, ⟨0, 1⟩) (⟨48, 1⟩, ⟨48, 1⟩)] := by decide

/-! ## Batch processing (`IconPicker.bulk_process`) -/

/-- One directory entry: a file name plus the outcome of reading and
parsing it. -/
structure DirFile where
  name : String
  parsed : Except Err SvgSource
deriving DecidableEq

/-- ASCII `str.lower()` (file names). -/
def toLowerCh (c : Char) : Char :=
  if 'A' ≤ c ∧ c ≤ 'Z' then Char.ofNat (c.toNat + 32) else c

/-- `f.lower().endswith(".svg")`. -/
def isSvgName (s : String) : Bool := (s.data.map toLowerCh).reverse.take 4 = ['g', 'v', 's', '.']

inductive BulkResult
  | dirMissing
  | noFiles
  | done (outputs : List (String × XNode)) (failures : List (String × Err))

/-- Shape of a `done` result: (number of outputs, number of recorded
failures). -/
def BulkResult.shape : BulkResult → Option (Nat × Nat)
  | .done o f => some (o.length, f.length)
  | _ => none

/-- The per-file loop: process each file; a success contributes an output
file, a failure is recorded (`logger.error`) and the loop continues. -/
def bulkGo (newW newH : Frac) (addStyle addWH : Bool) :
    List DirFile → List (String × XNode) × List (String × Err)
  | [] => ([], [])
  | f :: rest =>
      let r := bulkGo newW newH addStyle addWH rest
      match processSvgCore f.parsed newW newH addStyle addWH with
      | .ok doc => ((f.name, doc) :: r.1, r.2)
      | .error e => (r.1, (f.name, e) :: r.2)

/-- `IconPicker.bulk_process`: missing directory raises `FileNotFoundError`;
otherwise files with a case-insensitive `.svg` suffix are selected; an
empty selection is a logged no-op; otherwise every selected file is
processed by the per-file loop. -/
def bulkProcess (dirExists : Bool) (files : List DirFile) (newW newH : Frac)
    (addStyle addWH : Bool) : BulkResult :=
  if dirExists then
    let svgs := files.filter (fun f => isSvgName f.name)
    if svgs.isEmpty then .noFiles
    else
      let r := bulkGo newW newH addStyle addWH svgs
      .done r.1 r.2
  else .dirMissing

/-! ## Value-level equality of fractions, points and paths -/

/-- Value equality of fractions (cross multiplication), as a Boolean. -/
def Frac.eqB (a b : Frac) : Bool := a.num * (b.den : Int) == b.num * (a.den : Int)

def ptEqB (p q : Pt) : Bool := p.1.eqB q.1 && p.2.eqB q.2

def segEqB : Seg → Seg → Bool
  | .line p0 p1, .line q0 q1 => ptEqB p0 q0 && ptEqB p1 q1
  | .quad p0 c p1, .quad q0 d q1 => ptEqB p0 q0 && ptEqB c d && ptEqB p1 q1
  | .cubic p0 c1 c2 p1, .cubic q0 d1 d2 q1 =>
      ptEqB p0 q0 && ptEqB c1 d1 && ptEqB c2 d2 && ptEqB p1 q1
  | .arc p0 r rot la sw p1, .arc q0 r' rot' la' sw' q1 =>
      ptEqB p0 q0 && ptEqB r r' && rot.eqB rot' && (la == la') && (sw == sw') && ptEqB p1 q1
  | _, _ => false

def pathEqB : SPath → SPath → Bool
  | [], [] => true
  | s :: p, t :: q => segEqB s t && pathEqB p q
  | _, _ => false

/-! ## Concrete documents used by the end-to-end claims -/

/-- The 24×24 document with the single path `M0 0 L24 24`. -/
def demo24 : SvgSource :=
  ⟨[("viewBox", "0 0 24 24")], [[Seg.line (⟨0, 1⟩, ⟨0, 1⟩) (⟨24, 1⟩, ⟨24, 1⟩)]]⟩

/-- A parsed valid 24×24 single-path file. -/
def demoValid (n : String) : DirFile := ⟨n, .ok demo24⟩

/-- A file whose parsing failed (`svg2paths2` raised). -/
def demoBroken : DirFile := ⟨"broken.svg", .error .parseError⟩

/-- A directory with 3 valid SVG files (one with an upper-case suffix),
one malformed SVG file and one non-SVG file. -/
def demoDir : List DirFile :=
  [demoValid "a.svg", demoValid "b.SVG", demoBroken, demoValid "c.svg",
   ⟨"notes.txt", .error .parseError⟩]

example : (processSvgCore (.ok demo24) ⟨48, 1⟩ ⟨48, 1⟩ false false).map dStrings
    = .ok ["M 0,0 L 48,48"] := by decide
example : (bulkProcess true demoDir ⟨48, 1⟩ ⟨48, 1⟩ false false).shape = some (3, 1) := by decide

/-! ## Helper lemmas -/

theorem Frac.isZero_eq_false {a : Frac} (h : a.num ≠ 0) : a.isZero = false := by
  simp [Frac.isZero, h]

theorem mapO_length {α β : Type} (f : α → Option β) :
    ∀ (l : List α) (r : List β), mapO f l = some r → r.length = l.length := by
  intro l
  induction l with
  | nil => intro r h; simp [mapO] at h; simp [← h]
  | cons a t ih =>
      intro r h
      cases hf : f a with
      | none => simp [mapO, hf] at h
      | some b =>
          cases ht : mapO f t with
          | none => simp [mapO, hf, ht] at h
          | some rt =>
              simp [mapO, hf, ht] at h
              rw [← h]
              simp [ih rt ht]

theorem processSvgCore_eq (src : SvgSource) (newW newH ow oh : Frac) (aS aWH : Bool)
    (hd : extractDimensions src.attrs = .ok (ow, oh))
    (hw : ow.num ≠ 0) (hh : oh.num ≠ 0) :
    processSvgCore (.ok src) newW newH aS aWH =
      .ok (.elem "svg" (createSvgDom newW newH aWH aS).1
        ((createSvgDom newW newH aWH aS).2 ++
          src.paths.map
            (fun p => mkPathNode (subFmt ⟨pathD (scalePath (newW.div ow) (newH.div oh) p)⟩)))) := by
  simp [processSvgCore, hd, Frac.isZero_eq_false hw, Frac.isZero_eq_false hh, List.map_map,
    Function.comp]

theorem processSvgCore_ok_inv (src : SvgSource) (newW newH : Frac) (aS aWH : Bool) (out : XNode)
    (h : processSvgCore (.ok src) newW newH aS aWH = .ok out) :
    ∃ ow oh, extractDimensions src.attrs = .ok (ow, oh) ∧ ow.num ≠ 0 ∧ oh.num ≠ 0 ∧
      out = .elem "svg" (createSvgDom newW newH aWH aS).1
        ((createSvgDom newW newH aWH aS).2 ++
          src.paths.map
            (fun p => mkPathNode (subFmt ⟨pathD (scalePath (newW.div ow) (newH.div oh) p)⟩))) := by
  cases hex : extractDimensions src.attrs with
  | error e => simp [processSvgCore, hex] at h
  | ok d =>
      obtain ⟨ow, oh⟩ := d
      by_cases hwz : ow.num = 0
      · simp [processSvgCore, hex, Frac.isZero, hwz] at h
      · by_cases hhz : oh.num = 0
        · simp [processSvgCore, hex, Frac.isZero, hhz] at h
        · refine ⟨ow, oh, rfl, hwz, hhz, ?_⟩
          simp [processSvgCore, hex, Frac.isZero_eq_false hwz, Frac.isZero_eq_false hhz,
            List.map_map, Function.comp] at h
          exact h.symm

theorem filterMap_d_of_paths (ds : List String) :
    List.filterMap (fun c => if c.tag = "path" then getAttr c.attrs "d" else none)
      (ds.map mkPathNode) = ds := by
  induction ds with
  | nil => rfl
  | cons d t ih =>
      rw [List.map_cons, List.filterMap_cons]
      have hfa : (if (mkPathNode d).tag = "path" then getAttr (mkPathNode d).attrs "d" else none)
          = some d := rfl
      rw [hfa, ih]

theorem filter_path_of_paths (ds : List String) :
    List.filter (fun c => c.tag = "path") (ds.map mkPathNode) = ds.map mkPathNode := by
  induction ds with
  | nil => rfl
  | cons d t ih =>
      rw [List.map_cons, List.filter_cons]
      have hfa : decide ((mkPathNode d).tag = "path") = true := rfl
      rw [hfa, ih]
      simp

theorem dStrings_assembled (A : List (String × String)) (aS : Bool) (ds : List String) :
    dStrings (.elem "svg" A ((if aS then [styleNode] else []) ++ ds.map mkPathNode)) = ds := by
  have hstyle : (if styleNode.tag = "path" then getAttr styleNode.attrs "d" else none) = none := rfl
  cases aS
  · exact filterMap_d_of_paths ds
  · show List.filterMap _ ([styleNode] ++ ds.map mkPathNode) = ds
    rw [List.filterMap_append, List.filterMap_cons, hstyle]
    simpa using filterMap_d_of_paths ds

theorem pathCount_assembled (A : List (String × String)) (aS : Bool) (ds : List String) :
    pathCount (.elem "svg" A ((if aS then [styleNode] else []) ++ ds.map mkPathNode)) =
      ds.length := by
  have hstyle : decide (styleNode.tag = "path") = false := rfl
  cases aS
  · show (List.filter _ (ds.map mkPathNode)).length = ds.length
    rw [filter_path_of_paths]
    simp
  · show (List.filter _ ([styleNode] ++ ds.map mkPathNode)).length = ds.length
    rw [List.filter_append, List.filter_cons, hstyle]
    simp [filter_path_of_paths]

theorem Frac.eqB_refl (a : Frac) : a.eqB a = true := by simp [Frac.eqB]

theorem Frac.div_self_eqB {a : Frac} (_h : a.num ≠ 0) : (a.div a).eqB ⟨1, 1⟩ = true := by
  by_cases hlt : a.num < 0
  · simp [Frac.div, Frac.mul, Frac.inv, Frac.eqB, hlt]
    rw [abs_of_neg hlt]
    ring
  · simp [Frac.div, Frac.mul, Frac.inv, Frac.eqB, hlt]
    rw [abs_of_nonneg (not_lt.mp hlt)]
    ring

theorem Frac.mul_eqB_right {x s : Frac} (h : s.eqB ⟨1, 1⟩ = true) : (x.mul s).eqB x = true := by
  simp [Frac.eqB] at h
  simp [Frac.eqB, Frac.mul]
  rw [h]
  ring

theorem scalePt_eqB {sx sy : Frac} (hx : sx.eqB ⟨1, 1⟩ = true) (hy : sy.eqB ⟨1, 1⟩ = true)
    (p : Pt) : ptEqB (scalePt sx sy p) p = true := by
  simp [ptEqB, scalePt, Frac.mul_eqB_right hx, Frac.mul_eqB_right hy]

theorem seg_scaled_eqB {sx sy : Frac} (hx : sx.eqB ⟨1, 1⟩ = true) (hy : sy.eqB ⟨1, 1⟩ = true)
    (s : Seg) : segEqB (s.scaled sx sy) s = true := by
  cases s <;>
    simp [Seg.scaled, segEqB, scalePt_eqB hx hy, Frac.eqB_refl]

theorem path_scaled_eqB {sx sy : Frac} (hx : sx.eqB ⟨1, 1⟩ = true) (hy : sy.eqB ⟨1, 1⟩ = true)
    (p : SPath) : pathEqB (scalePath sx sy p) p = true := by
  induction p with
  | nil => rfl
  | cons s t ih =>
      have hs := seg_scaled_eqB hx hy s
      simp only [scalePath, List.map_cons] at ih ⊢
      simp [pathEqB, hs]
      exact ih

theorem scalePath_kinds (sx sy : Frac) (p : SPath) :
    (scalePath sx sy p).map Seg.kind = p.map Seg.kind := by
  induction p with
  | nil => rfl
  | cons s t ih =>
      cases s <;> simp [scalePath, Seg.scaled, Seg.kind] at ih ⊢ <;> exact ih

theorem scalePath_points (sx sy : Frac) (p : SPath) :
    (scalePath sx sy p).map Seg.points =
      p.map (fun s => s.points.map (scalePt sx sy)) := by
  induction p with
  | nil => rfl
  | cons s t ih =>
      cases s <;> simp [scalePath, Seg.scaled, Seg.points] at ih ⊢ <;> exact ih

/-! ## Claim theorems -/

/-- C5: dimension resolution follows the priority order viewBox, then
width+height with unit suffix stripped, then the fixed default:
`viewBox="0 0 24 24"` resolves to (24.0, 24.0); `width="16px"`,
`height="16px"` with no viewBox resolve to (16.0, 16.0); with none of
viewBox/width/height present the result is exactly (100.0, 100.0). -/
theorem dimension_resolution_cases :
    extractDimensions [("viewBox", "0 0 24 24")] = .ok (⟨24, 1⟩, ⟨24, 1⟩) ∧
    extractDimensions [("width", "16px"), ("height", "16px")] = .ok (⟨16, 1⟩, ⟨16, 1⟩) ∧
    extractDimensions [("fill", "none")] = .ok (⟨100, 1⟩, ⟨100, 1⟩) := by decide

/-- C4 (counterexample): a viewBox that splits into 3 tokens does NOT fail
with `MalformedAttribute`; `_extract_dimensions` silently keeps the
(100.0, 100.0) defaults when the token count is not 4. -/
theorem viewbox_three_tokens_no_error :
    extractDimensions [("viewBox", "0 0 24")] = .ok (⟨100, 1⟩, ⟨100, 1⟩) ∧
    extractDimensions [("viewBox", "0 0 24")] ≠ .error .malformedAttribute := by decide

/-- C4 (amended): with a viewBox attribute present, a token count other
than 4 silently resolves to the default (100.0, 100.0); only when the
token count is exactly 4 does a non-numeric token make resolution fail
(the `float` call raises, modelled as `MalformedAttribute`). -/
theorem viewbox_malformed_amended (attrs : SvgAttrs) (vb : String)
    (hvb : getAttr attrs "viewBox" = some vb) :
    ((reSplitSep (pyStrip vb.data)).length ≠ 4 →
      extractDimensions attrs = .ok (⟨100, 1⟩, ⟨100, 1⟩)) ∧
    ((reSplitSep (pyStrip vb.data)).length = 4 →
      (extractDimensions attrs = .error .malformedAttribute ↔
        none ∈ (reSplitSep (pyStrip vb.data)).map parseFloat)) := by
  constructor
  · intro hlen
    simp [extractDimensions, hvb, hlen]
  · intro hlen
    rcases hp : reSplitSep (pyStrip vb.data) with _ | ⟨a, _ | ⟨b, _ | ⟨c, _ | ⟨d, _ | ⟨e, t⟩⟩⟩⟩⟩ <;>
      rw [hp] at hlen <;> simp at hlen
    cases ha : parseFloat a <;> cases hb : parseFloat b <;> cases hc : parseFloat c <;>
      cases hd : parseFloat d <;>
      simp [extractDimensions, hvb, hp, ha, hb, hc, hd]

/-- C4 (amended, witness). -/
theorem viewbox_malformed_amended_witness :
    extractDimensions [("viewBox", "0 0 24")] = .ok (⟨100, 1⟩, ⟨100, 1⟩) :=
  (viewbox_malformed_amended [("viewBox", "0 0 24")] "0 0 24" (by decide)).1 (by decide)

/-- C10: whenever a viewBox attribute is present, width/height are never
consulted (the result depends only on the viewBox value), and a viewBox
that does not split into exactly 4 tokens silently yields the default
(100.0, 100.0) instead of an error. -/
theorem viewbox_shadows_width_height (attrs attrs' : SvgAttrs) (vb : String)
    (h : getAttr attrs "viewBox" = some vb) (h' : getAttr attrs' "viewBox" = some vb) :
    extractDimensions attrs = extractDimensions attrs' ∧
    ((reSplitSep (pyStrip vb.data)).length ≠ 4 →
      extractDimensions attrs = .ok (⟨100, 1⟩, ⟨100, 1⟩)) := by
  constructor
  · simp [extractDimensions, h, h']
  · intro hlen
    simp [extractDimensions, h, hlen]

/-- C10 (witness): unusable viewBox with usable width/height still yields
the default. -/
theorem viewbox_shadows_width_height_witness :
    extractDimensions [("viewBox", "0 0 24"), ("width", "16px"), ("height", "16px")] =
      .ok (⟨100, 1⟩, ⟨100, 1⟩) :=
  (viewbox_shadows_width_height
    [("viewBox", "0 0 24"), ("width", "16px"), ("height", "16px")]
    [("viewBox", "0 0 24")] "0 0 24" (by decide) (by decide)).2 (by decide)

/-- C6: a resolved width or height of exactly zero makes processing fail
with `InvalidDimensions`; the check uses only the resolved dimensions
(after resolution) and holds for every target size (before any
scale-factor computation). -/
theorem zero_dimension_fails (src : SvgSource) (newW newH ow oh : Frac) (aS aWH : Bool)
    (hd : extractDimensions src.attrs = .ok (ow, oh))
    (hz : ow.num = 0 ∨ oh.num = 0) :
    processSvgCore (.ok src) newW newH aS aWH = .error .invalidDimensions := by
  rcases hz with hz | hz <;> simp [processSvgCore, hd, Frac.isZero, hz]

/-- C6 (witness): `viewBox="0 0 0 10"` fails with `InvalidDimensions`. -/
theorem zero_dimension_fails_witness :
    processSvgCore (.ok ⟨[("viewBox", "0 0 0 10")], []⟩) ⟨48, 1⟩ ⟨48, 1⟩ false false =
      .error .invalidDimensions :=
  zero_dimension_fails ⟨[("viewBox", "0 0 0 10")], []⟩ ⟨48, 1⟩ ⟨48, 1⟩ ⟨0, 1⟩ ⟨10, 1⟩ false false
    (by decide) (Or.inl (by decide))

/-- C7 (counterexample): resolved dimensions are NOT always strictly
positive: `viewBox="0 0 -5 10"` resolves to width −5 and processing
succeeds instead of failing. -/
theorem negative_dimensions_accepted :
    extractDimensions [("viewBox", "0 0 -5 10")] = .ok (⟨-5, 1⟩, ⟨10, 1⟩) ∧
    (processSvgCore (.ok ⟨[("viewBox", "0 0 -5 10")],
        [[Seg.line (⟨0, 1⟩, ⟨0, 1⟩) (⟨1, 1⟩, ⟨1, 1⟩)]]⟩) ⟨10, 1⟩ ⟨10, 1⟩ false false).isOk
      = true := by decide

/-- C7 (amended): the guard rejects exactly the dimensions equal to zero:
processing fails with `InvalidDimensions` iff the resolved width or height
is zero; negative dimensions pass the guard and proceed to scaling. -/
theorem invalid_dimensions_iff_zero (src : SvgSource) (newW newH ow oh : Frac) (aS aWH : Bool)
    (hd : extractDimensions src.attrs = .ok (ow, oh)) :
    (processSvgCore (.ok src) newW newH aS aWH = .error .invalidDimensions ↔
      (ow.num = 0 ∨ oh.num = 0)) := by
  constructor
  · intro h
    by_contra hne
    push_neg at hne
    rw [processSvgCore_eq src newW newH ow oh aS aWH hd hne.1 hne.2] at h
    exact Except.noConfusion h
  · intro hz
    rcases hz with hz | hz <;> simp [processSvgCore, hd, Frac.isZero, hz]

/-- C7 (amended, witness): the negative-width document is not rejected. -/
theorem invalid_dimensions_iff_zero_witness :
    processSvgCore (.ok ⟨[("viewBox", "0 0 -5 10")],
        [[Seg.line (⟨0, 1⟩, ⟨0, 1⟩) (⟨1, 1⟩, ⟨1, 1⟩)]]⟩) ⟨10, 1⟩ ⟨10, 1⟩ false false ≠
      .error .invalidDimensions := by
  intro hc
  have hz := (invalid_dimensions_iff_zero
    ⟨[("viewBox", "0 0 -5 10")], [[Seg.line (⟨0, 1⟩, ⟨0, 1⟩) (⟨1, 1⟩, ⟨1, 1⟩)]]⟩
    ⟨10, 1⟩ ⟨10, 1⟩ ⟨-5, 1⟩ ⟨10, 1⟩ false false (by decide)).mp hc
  exact absurd hz (by decide)

/-- C3 (counterexample): the numeric formatting step does not always
produce the claimed shortest plain-decimal form: `-0.001` formats to `-0`
(negative zero), not `0`, and `1234567` formats to scientific notation
`1.23457e+06`. -/
theorem numeric_format_counterexample :
    subFmt "-0.001" = "-0" ∧ ("-0" : String) ≠ "0" ∧
    subFmt "1234567" = "1.23457e+06" := by decide

/-- C3 (amended): each embedded numeric literal is rounded to 2 decimal
places on its binary64 value (ties to even) and re-rendered with Python's
general format at 6 significant digits — trailing zeros and unnecessary
decimal points removed, but magnitudes at or above 10^6 print in
scientific notation, at most 6 significant digits survive, and a negative
value rounding to zero prints as `-0`; non-numeric characters pass through
unchanged; `12.345` → `12.35`, `5.00` → `5`, `-0.001` → `-0`. -/
theorem numeric_format_amended :
    subFmt "12.345" = "12.35" ∧
    subFmt "5.00" = "5" ∧
    subFmt "-0.001" = "-0" ∧
    subFmt "1234567" = "1.23457e+06" ∧
    subFmt "123456.78" = "123457" ∧
    subFmt "M Z , L" = "M Z , L" ∧
    subFmt "12.355" = "12.36" := by decide

theorem dStrings_core (A : List (String × String)) (aS : Bool) (f : SPath → String)
    (ps : List SPath) :
    dStrings (.elem "svg" A ((if aS then [styleNode] else []) ++
      ps.map (fun p => mkPathNode (f p)))) = ps.map f := by
  have h := dStrings_assembled A aS (ps.map f)
  rw [List.map_map] at h
  simpa [Function.comp] using h

theorem pathCount_core (A : List (String × String)) (aS : Bool) (f : SPath → String)
    (ps : List SPath) :
    pathCount (.elem "svg" A ((if aS then [styleNode] else []) ++
      ps.map (fun p => mkPathNode (f p)))) = ps.length := by
  have h := pathCount_assembled A aS (ps.map f)
  rw [List.map_map] at h
  simpa [Function.comp] using h

/-- C1: for nonzero resolved dimensions `(ow, oh)` and target
`(newW, newH)`, processing emits, per input path and in input order, the
path scaled by the per-axis factors `newW/ow` and `newH/oh`
(serialized and numerically formatted); scaling preserves segment kinds
and ordering and multiplies every control point's X by `newW/ow` and Y by
`newH/oh`; and the 24×24 document with the single path `M0 0 L24 24`
resized to 48×48 yields the path data `M 0,0 L 48,48`, both endpoints
scaled exactly 2×. -/
theorem geometry_scaler_per_axis (src : SvgSource) (newW newH ow oh : Frac) (aS aWH : Bool)
    (hd : extractDimensions src.attrs = .ok (ow, oh))
    (hw : ow.num ≠ 0) (hh : oh.num ≠ 0) :
    (∃ out, processSvgCore (.ok src) newW newH aS aWH = .ok out ∧
        dStrings out = src.paths.map
          (fun p => subFmt ⟨pathD (scalePath (newW.div ow) (newH.div oh) p)⟩)) ∧
    (∀ p : SPath, (scalePath (newW.div ow) (newH.div oh) p).map Seg.kind = p.map Seg.kind) ∧
    (∀ p : SPath, (scalePath (newW.div ow) (newH.div oh) p).map Seg.points =
        p.map (fun s => s.points.map (scalePt (newW.div ow) (newH.div oh)))) ∧
    (processSvgCore (.ok demo24) ⟨48, 1⟩ ⟨48, 1⟩ false false).map dStrings =
      .ok ["M 0,0 L 48,48"] ∧
    pathEqB
      (scalePath (Frac.div ⟨48, 1⟩ ⟨24, 1⟩) (Frac.div ⟨48, 1⟩ ⟨24, 1⟩)
        [Seg.line (⟨0, 1⟩, ⟨0, 1⟩) (⟨24, 1⟩, ⟨24, 1⟩)])
      [Seg.line (⟨0, 1⟩, ⟨0, 1⟩) (⟨48, 1⟩, ⟨48, 1⟩)] = true := by
  refine ⟨⟨_, processSvgCore_eq src newW newH ow oh aS aWH hd hw hh, ?_⟩,
    scalePath_kinds _ _, scalePath_points _ _, by decide, by decide⟩
  exact dStrings_core _ aS _ src.paths

/-- C1 (witness). -/
theorem geometry_scaler_per_axis_witness :
    ∃ out, processSvgCore (.ok demo24) ⟨48, 1⟩ ⟨48, 1⟩ false false = .ok out ∧
      dStrings out = demo24.paths.map
        (fun p => subFmt ⟨pathD
          (scalePath (Frac.div ⟨48, 1⟩ ⟨24, 1⟩) (Frac.div ⟨48, 1⟩ ⟨24, 1⟩) p)⟩) :=
  (geometry_scaler_per_axis demo24 ⟨48, 1⟩ ⟨48, 1⟩ ⟨24, 1⟩ ⟨24, 1⟩ false false
    (by decide) (by decide) (by decide)).1

/-- C8: the emitted root element always carries exactly the attributes
`viewBox="0 0 {w} {h}"`, `xmlns`, `fill="currentColor"` and the fixed
`style` value; it carries `width`/`height` attributes iff
`addWidthHeightAttributes`; it contains exactly one `<style>` child, with
the fixed CSS text, placed before the path elements iff `addStyle`; and
one `<path>` element per input path, with `d` as its only attribute, in
input order. -/
theorem document_builder_structure (src : SvgSource) (newW newH ow oh : Frac) (aS aWH : Bool)
    (hd : extractDimensions src.attrs = .ok (ow, oh))
    (hw : ow.num ≠ 0) (hh : oh.num ≠ 0) :
    processSvgCore (.ok src) newW newH aS aWH = .ok (XNode.elem "svg"
      ([("viewBox", vbStr newW newH)]
        ++ (if aWH then [("width", ⟨fracStr newW⟩), ("height", ⟨fracStr newH⟩)] else [])
        ++ [("xmlns", "http://www.w3.org/2000/svg"), ("fill", "currentColor"),
            ("style", "--icon-color:#D4D4D4; fill:var(--icon-color);")])
      ((if aS then [XNode.elem "style" [] [XNode.text styleCss]] else [])
        ++ src.paths.map (fun p => XNode.elem "path"
            [("d", subFmt ⟨pathD (scalePath (newW.div ow) (newH.div oh) p)⟩)] []))) :=
  processSvgCore_eq src newW newH ow oh aS aWH hd hw hh

/-- C8 (witness): with `addStyle = true` and
`addWidthHeightAttributes = false`, the root has no width/height and one
style child before the paths. -/
theorem document_builder_structure_witness :
    processSvgCore (.ok demo24) ⟨48, 1⟩ ⟨48, 1⟩ true false = .ok (XNode.elem "svg"
      ([("viewBox", vbStr ⟨48, 1⟩ ⟨48, 1⟩)]
        ++ [("xmlns", "http://www.w3.org/2000/svg"), ("fill", "currentColor"),
            ("style", "--icon-color:#D4D4D4; fill:var(--icon-color);")])
      ([XNode.elem "style" [] [XNode.text styleCss]]
        ++ demo24.paths.map (fun p => XNode.elem "path"
            [("d", subFmt ⟨pathD (scalePath (Frac.div ⟨48, 1⟩ ⟨24, 1⟩)
              (Frac.div ⟨48, 1⟩ ⟨24, 1⟩) p)⟩)] []))) := by
  have h := document_builder_structure demo24 ⟨48, 1⟩ ⟨48, 1⟩ ⟨24, 1⟩ ⟨24, 1⟩ true false
    (by decide) (by decide) (by decide)
  simpa using h

theorem createSvgDom_snd (w h : Frac) (aWH aS : Bool) :
    (createSvgDom w h aWH aS).2 = if aS then [styleNode] else [] := rfl

/-- C2: resizing an already-resized document to its own stated size is
idempotent modulo path-count-preserving reformatting: when the first
output's viewBox resolves back to the target `(newW, newH)` and its path
data re-parses, the second pass succeeds, keeps the root element (tag and
attributes) unchanged, preserves the number of `<path>` children, computes
scale factors exactly equal to 1, and moves no coordinate (every re-scaled
path is pointwise value-equal to the parsed one). -/
theorem resize_idempotent_structure (src src2 : SvgSource) (newW newH : Frac) (aS aWH : Bool)
    (out1 : XNode)
    (h1 : processSvgCore (.ok src) newW newH aS aWH = .ok out1)
    (h2 : docToSource out1 = .ok src2)
    (hvb : extractDimensions src2.attrs = .ok (newW, newH))
    (hW : newW.num ≠ 0) (hH : newH.num ≠ 0) :
    ∃ out2, processSvgCore (.ok src2) newW newH aS aWH = .ok out2 ∧
      out2.tag = out1.tag ∧
      out2.attrs = out1.attrs ∧
      pathCount out2 = pathCount out1 ∧
      (newW.div newW).eqB ⟨1, 1⟩ = true ∧
      (newH.div newH).eqB ⟨1, 1⟩ = true ∧
      ∀ p ∈ src2.paths, pathEqB (scalePath (newW.div newW) (newH.div newH) p) p = true := by
  obtain ⟨ow, oh, hd1, hw1, hh1, hout1⟩ := processSvgCore_ok_inv src newW newH aS aWH out1 h1
  have hpe := processSvgCore_eq src2 newW newH newW newH aS aWH hvb hW hH
  have hds : dStrings out1 =
      src.paths.map (fun p => subFmt ⟨pathD (scalePath (newW.div ow) (newH.div oh) p)⟩) := by
    rw [hout1, createSvgDom_snd]
    exact dStrings_core _ aS _ src.paths
  have hd2 := h2
  rw [show docToSource out1 = (match mapO (fun d => pathDataParse d.data) (dStrings out1) with
      | some paths => Except.ok ⟨out1.attrs, paths⟩
      | none => Except.error Err.parseError) from rfl] at hd2
  cases hm : mapO (fun d => pathDataParse d.data) (dStrings out1) with
  | none => rw [hm] at hd2; exact absurd hd2 (by simp)
  | some ps =>
      rw [hm] at hd2
      have hsrc2 : src2 = ⟨out1.attrs, ps⟩ := by
        simpa using hd2.symm
      have hlen : ps.length = src.paths.length := by
        have := mapO_length (fun d => pathDataParse d.data) (dStrings out1) ps hm
        rw [hds] at this
        simpa using this
      refine ⟨_, hpe, ?_, ?_, ?_, Frac.div_self_eqB hW, Frac.div_self_eqB hH, ?_⟩
      · rw [hout1]; rfl
      · rw [hout1]; rfl
      · have c2 : pathCount (XNode.elem "svg" (createSvgDom newW newH aWH aS).1
            ((createSvgDom newW newH aWH aS).2 ++ src2.paths.map
              (fun p => mkPathNode
                (subFmt ⟨pathD (scalePath (newW.div newW) (newH.div newH) p)⟩)))) =
            src2.paths.length := by
          rw [createSvgDom_snd]
          exact pathCount_core _ aS _ src2.paths
        have c1 : pathCount out1 = src.paths.length := by
          rw [hout1, createSvgDom_snd]
          exact pathCount_core _ aS _ src.paths
        rw [c2, c1, hsrc2]
        simpa using hlen
      · intro p _
        exact path_scaled_eqB (Frac.div_self_eqB hW) (Frac.div_self_eqB hH) p

/-- C2 (witness): the 24×24 single-path document resized to 48×48 and
re-processed at 48×48. -/
theorem resize_idempotent_structure_witness :
    ∃ out2, processSvgCore
        (.ok ⟨[("viewBox", "0 0 48 48"), ("xmlns", "http://www.w3.org/2000/svg"),
               ("fill", "currentColor"),
               ("style", "--icon-color:#D4D4D4; fill:var(--icon-color);")],
              [[Seg.line (⟨0, 1⟩, ⟨0, 1⟩) (⟨48, 1⟩, ⟨48, 1⟩)]]⟩)
        ⟨48, 1⟩ ⟨48, 1⟩ false false = .ok out2 ∧
      out2.tag = (XNode.elem "svg"
        [("viewBox", "0 0 48 48"), ("xmlns", "http://www.w3.org/2000/svg"),
         ("fill", "currentColor"),
         ("style", "--icon-color:#D4D4D4; fill:var(--icon-color);")]
        [XNode.elem "path" [("d", "M 0,0 L 48,48")] []]).tag ∧
      out2.attrs = (XNode.elem "svg"
        [("viewBox", "0 0 48 48"), ("xmlns", "http://www.w3.org/2000/svg"),
         ("fill", "currentColor"),
         ("style", "--icon-color:#D4D4D4; fill:var(--icon-color);")]
        [XNode.elem "path" [("d", "M 0,0 L 48,48")] []]).attrs ∧
      pathCount out2 = pathCount (XNode.elem "svg"
        [("viewBox", "0 0 48 48"), ("xmlns", "http://www.w3.org/2000/svg"),
         ("fill", "currentColor"),
         ("style", "--icon-color:#D4D4D4; fill:var(--icon-color);")]
        [XNode.elem "path" [("d", "M 0,0 L 48,48")] []]) ∧
      ((⟨48, 1⟩ : Frac).div ⟨48, 1⟩).eqB ⟨1, 1⟩ = true ∧
      ((⟨48, 1⟩ : Frac).div ⟨48, 1⟩).eqB ⟨1, 1⟩ = true ∧
      ∀ p ∈ ([[Seg.line (⟨0, 1⟩, ⟨0, 1⟩) (⟨48, 1⟩, ⟨48, 1⟩)]] : List SPath),
        pathEqB (scalePath ((⟨48, 1⟩ : Frac).div ⟨48, 1⟩) ((⟨48, 1⟩ : Frac).div ⟨48, 1⟩) p) p
          = true :=
  resize_idempotent_structure demo24
    ⟨[("viewBox", "0 0 48 48"), ("xmlns", "http://www.w3.org/2000/svg"),
      ("fill", "currentColor"),
      ("style", "--icon-color:#D4D4D4; fill:var(--icon-color);")],
     [[Seg.line (⟨0, 1⟩, ⟨0, 1⟩) (⟨48, 1⟩, ⟨48, 1⟩)]]⟩
    ⟨48, 1⟩ ⟨48, 1⟩ false false
    (XNode.elem "svg"
      [("viewBox", "0 0 48 48"), ("xmlns", "http://www.w3.org/2000/svg"),
       ("fill", "currentColor"),
       ("style", "--icon-color:#D4D4D4; fill:var(--icon-color);")]
      [XNode.elem "path" [("d", "M 0,0 L 48,48")] []])
    rfl (by decide) (by decide) (by decide) (by decide)

/-- C9: batch processing isolates per-file failures: files with a
case-insensitive `.svg` suffix are processed independently (the per-file
loop distributes over list concatenation, and a failing file contributes
exactly one recorded failure without disturbing the outputs of the
others); every selected file ends as an output or a recorded failure; a
directory with zero matching files is a logged no-op (`noFiles`), not an
error; and the demo directory with 3 valid SVGs and 1 malformed SVG
produces 3 outputs and 1 recorded failure. -/
theorem bulk_failure_isolation (newW newH : Frac) (aS aWH : Bool) :
    (∀ files : List DirFile, files.filter (fun f => isSvgName f.name) = [] →
        bulkProcess true files newW newH aS aWH = .noFiles) ∧
    (∀ l₁ l₂ : List DirFile,
        bulkGo newW newH aS aWH (l₁ ++ l₂) =
          ((bulkGo newW newH aS aWH l₁).1 ++ (bulkGo newW newH aS aWH l₂).1,
           (bulkGo newW newH aS aWH l₁).2 ++ (bulkGo newW newH aS aWH l₂).2)) ∧
    (∀ (l₁ l₂ : List DirFile) (f : DirFile) (e : Err),
        processSvgCore f.parsed newW newH aS aWH = .error e →
        bulkGo newW newH aS aWH (l₁ ++ f :: l₂) =
          ((bulkGo newW newH aS aWH l₁).1 ++ (bulkGo newW newH aS aWH l₂).1,
           (bulkGo newW newH aS aWH l₁).2 ++ (f.name, e) :: (bulkGo newW newH aS aWH l₂).2)) ∧
    (∀ l : List DirFile,
        (bulkGo newW newH aS aWH l).1.length + (bulkGo newW newH aS aWH l).2.length =
          l.length) ∧
    (bulkProcess true demoDir ⟨48, 1⟩ ⟨48, 1⟩ false false).shape = some (3, 1) := by
  have happ : ∀ l₁ l₂ : List DirFile,
      bulkGo newW newH aS aWH (l₁ ++ l₂) =
        ((bulkGo newW newH aS aWH l₁).1 ++ (bulkGo newW newH aS aWH l₂).1,
         (bulkGo newW newH aS aWH l₁).2 ++ (bulkGo newW newH aS aWH l₂).2) := by
    intro l₁ l₂
    induction l₁ with
    | nil => simp [bulkGo]
    | cons f t ih =>
        cases hp : processSvgCore f.parsed newW newH aS aWH <;>
          simp [bulkGo, hp, ih]
  refine ⟨?_, happ, ?_, ?_, by decide⟩
  · intro files hf
    simp [bulkProcess, hf]
  · intro l₁ l₂ f e hp
    rw [happ l₁ (f :: l₂)]
    simp [bulkGo, hp]
  · intro l
    induction l with
    | nil => rfl
    | cons f t ih =>
        cases hp : processSvgCore f.parsed newW newH aS aWH <;>
          simp [bulkGo, hp] <;> omega

/-- C9 (witness): a directory whose only file is not an SVG is a no-op. -/
theorem bulk_failure_isolation_witness :
    bulkProcess true [⟨"readme.txt", .error .parseError⟩] ⟨48, 1⟩ ⟨48, 1⟩ false false =
      .noFiles :=
  (bulk_failure_isolation ⟨48, 1⟩ ⟨48, 1⟩ false false).1
    [⟨"readme.txt", .error .parseError⟩] (by decide)
